import Mathlib

/-!
Shallow embedding of the pi-microhud display subsystem
(`pihud-ip.py`, `pihud-kismet.py`, `kismet_feed.py`).

The I2C traffic is modelled as a list of tagged bus transactions
(`Tx.cmd` for control tag 0x00, `Tx.data` for control tag 0x40), one
transaction per `write_i2c_block_data` call.  The numeric constants and
the command sequences are transcribed from the two HUD scripts, which
share the same low-level driver code.
-/

namespace PiHud

/-- Panel width in pixels (`W = 88` in both HUD scripts). -/
def W : Nat := 88

/-- Panel height in pixels (`H = 48`). -/
def H : Nat := 48

/-- Page count: `PAGES = (H + 7) // 8`. -/
def PAGES : Nat := (H + 7) / 8

/-- Start line constant (`START_LINE = 0`). -/
def START_LINE : Nat := 0

/-- Orientation preset: `ROTATE = 0` (normal) or `ROTATE = 1`
(rotated 180 degrees), from `pihud-ip.py`. -/
inductive Rotate
  | r0
  | r180
deriving DecidableEq

/-- Segment-remap opcode for a preset (`SEG = 0xA0` or `0xA1`). -/
def SEG : Rotate → Nat
  | Rotate.r0 => 0xA0
  | Rotate.r180 => 0xA1

/-- COM-scan-direction opcode for a preset (`COM = 0xC0` or `0xC8`). -/
def COM : Rotate → Nat
  | Rotate.r0 => 0xC0
  | Rotate.r180 => 0xC8

/-- Column offset for a preset (`X_OFFSET = 0` or `39`). -/
def X_OFFSET : Rotate → Nat
  | Rotate.r0 => 0
  | Rotate.r180 => 39

/-- One I2C transaction: `b.write_i2c_block_data(ADDR, tag, payload)`
with tag 0x00 (`cmd`, from `_cmd`) or 0x40 (`data`, from `_data`). -/
inductive Tx
  | cmd (payload : List Nat)
  | data (payload : List Nat)
deriving DecidableEq

/-- Payload bytes of a transaction. -/
def txPayload : Tx → List Nat
  | Tx.cmd v => v
  | Tx.data v => v

/-- Whether a transaction carries the data control tag 0x40. -/
def txIsData : Tx → Bool
  | Tx.cmd _ => false
  | Tx.data _ => true

/-- Pixel bytes sent over the bus by a transaction list, in order. -/
def dataBytes (txs : List Tx) : List Nat :=
  txs.flatMap fun t =>
    match t with
    | Tx.cmd _ => []
    | Tx.data v => v

/-- Python slice `buf[start : start + len]` on a byte list. -/
def sliceP (buf : List Nat) (start len : Nat) : List Nat :=
  (buf.drop start).take len

/-- The chunking loop of `_data`, bounded by an iteration budget: each
pass emits the next (at most 16-byte) chunk and drops it from the
remainder.  The loop consumes at least one byte per pass, so a budget of
the payload length covers every iteration. -/
def chunksRun : Nat → List Nat → List (List Nat)
  | 0, _ => []
  | Nat.succ _, [] => []
  | Nat.succ f, l => l.take 16 :: chunksRun f (l.drop 16)

/-- The chunking loop of `_data`: `while i < len(ch): n = min(16, len(ch)-i);
write(ch[i:i+n]); i += n`, rendered as the list of successive 16-byte
chunks of the payload. -/
def chunks16 (l : List Nat) : List (List Nat) :=
  chunksRun l.length l

/-- `_data(b, ch)`: one data-tagged transaction per 16-byte chunk,
in payload order. -/
def data_txs (ch : List Nat) : List Tx :=
  (chunks16 ch).map Tx.data

/-- `_set_page_col(b, page, col)`: three single-byte commands —
select page, column low nibble, column high nibble. -/
def set_page_col (page col : Nat) : List Tx :=
  [Tx.cmd [0xB0 ||| (page &&& 0x0F)],
   Tx.cmd [0x00 ||| (col &&& 0x0F)],
   Tx.cmd [0x10 ||| ((col >>> 4) &&& 0x0F)]]

/-- `_init_for_48_rows(b)`: the initialization command sequence. -/
def init_for_48_rows (r : Rotate) : List Tx :=
  [Tx.cmd [0xAE],
   Tx.cmd [0xA8, (H - 1) &&& 0x3F],
   Tx.cmd [0xD3, START_LINE &&& 0x3F],
   Tx.cmd [0x40],
   Tx.cmd [SEG r],
   Tx.cmd [COM r],
   Tx.cmd [0xAF]]

/-- `push_frame_only(buf)`: for each logical page, set the cursor to
`(page, X_OFFSET)` and send the page's `W`-byte slice of the buffer as
data. -/
def push_frame_only (r : Rotate) (buf : List Nat) : List Tx :=
  (List.range PAGES).flatMap fun p =>
    set_page_col p (X_OFFSET r) ++ data_txs (sliceP buf (p * W) W)

/-- A transaction is a cursor-movement command: page select
(0xB0..0xBF), column low nibble (0x00..0x0F) or column high nibble
(0x10..0x1F). -/
def is_cursor_cmd : Tx → Bool
  | Tx.cmd [v] => (0xB0 ≤ v && v ≤ 0xBF) || v ≤ 0x1F
  | _ => false

section ChunkLemmas

lemma chunksRun_flatten (f : Nat) : ∀ l : List Nat, l.length ≤ f →
    (chunksRun f l).flatten = l := by
  induction f with
  | zero =>
    intro l hl
    have : l = [] := List.eq_nil_of_length_eq_zero (Nat.le_zero.mp hl)
    subst this
    rfl
  | succ f ih =>
    intro l hl
    rcases l with _ | ⟨x, xs⟩
    · rfl
    · have hstep : chunksRun (f + 1) (x :: xs)
          = (x :: xs).take 16 :: chunksRun f ((x :: xs).drop 16) := rfl
      rw [hstep, List.flatten_cons, ih _ (by simp [List.length_drop] at hl ⊢; omega),
        List.take_append_drop]

lemma chunks16_flatten (l : List Nat) : (chunks16 l).flatten = l :=
  chunksRun_flatten l.length l (Nat.le_refl _)

lemma chunksRun_mem (f : Nat) : ∀ l : List Nat, ∀ c ∈ chunksRun f l,
    c ≠ [] ∧ c.length ≤ 16 := by
  induction f with
  | zero =>
    intro l c hc
    simp [chunksRun] at hc
  | succ f ih =>
    intro l c hc
    rcases l with _ | ⟨x, xs⟩
    · simp [chunksRun] at hc
    · have hstep : chunksRun (f + 1) (x :: xs)
          = (x :: xs).take 16 :: chunksRun f ((x :: xs).drop 16) := rfl
      rw [hstep] at hc
      rcases List.mem_cons.mp hc with h1 | h2
      · subst h1
        exact ⟨by simp, List.length_take_le 16 _⟩
      · exact ih _ c h2

lemma chunks16_mem {l c : List Nat} (hc : c ∈ chunks16 l) :
    c ≠ [] ∧ c.length ≤ 16 :=
  chunksRun_mem l.length l c hc

lemma dataBytes_append (a b : List Tx) :
    dataBytes (a ++ b) = dataBytes a ++ dataBytes b := by
  simp [dataBytes]

lemma dataBytes_data_txs (ch : List Nat) : dataBytes (data_txs ch) = ch := by
  have : ∀ cs : List (List Nat), dataBytes (cs.map Tx.data) = cs.flatten := by
    intro cs
    induction cs with
    | nil => rfl
    | cons c cs ihc => simp [dataBytes, List.flatMap] at ihc ⊢; exact ihc
  rw [data_txs, this, chunks16_flatten]

lemma dataBytes_set_page_col (page col : Nat) :
    dataBytes (set_page_col page col) = [] := rfl

lemma slice_glue {α : Type} (l : List α) (a n : Nat) :
    (l.drop a).take n ++ l.drop (a + n) = l.drop a := by
  have h1 : l.drop (a + n) = (l.drop a).drop n := by
    rw [List.drop_drop, Nat.add_comm]
  rw [h1, List.take_append_drop]

end ChunkLemmas

/-!
Framebuffer and text layout.  The two HUD scripts draw through the
external `adafruit_ssd1306` framebuffer object `d` (`d.fill`, `d.text`,
`d.buffer`); only the layout arithmetic lives in this repository.  The
framebuffer pixel operations are therefore modelled from the spec.
-/

/-- Modelled from the spec: the external framebuffer library's pixel
write (the repository delegates it to `adafruit_ssd1306`).  Pixel
(x, y) maps to byte `(y / 8) * W + x`, bit `y mod 8`; out-of-bounds
writes are dropped, never wrapped. -/
def setPixel (fb : List Nat) (x y : Int) : List Nat :=
  if 0 ≤ x ∧ x < (W : Int) ∧ 0 ≤ y ∧ y < (H : Int) then
    let off := (y.toNat / 8) * W + x.toNat
    fb.set off ((fb.getD off 0) ||| (1 <<< (y.toNat % 8)))
  else fb

/-- Modelled from the spec: `d.text` of the external framebuffer
library, which blits each character's fixed 5x8 glyph at 6-pixel pitch
via `setPixel`; the concrete per-character font bitmaps live in the
external library and are modelled as full 5x8 blocks. -/
def drawText (fb : List Nat) (s : String) (x y : Int) : List Nat :=
  (List.range s.length).foldl
    (fun fb1 j =>
      (List.range 5).foldl
        (fun fb2 c =>
          (List.range 8).foldl
            (fun fb3 r => setPixel fb3 (x + 6 * (j : Int) + (c : Int)) (y + (r : Int)))
            fb2)
        fb1)
    fb

/-- `text_width(s, char_w=6)` from both HUD scripts: `len(s) * 6`. -/
def text_width (s : String) : Int := (s.length : Int) * 6

/-- Per-line x position from `show_lines_align` in `pihud-ip.py`:
right aligns to the panel edge, left uses the fixed margin 2, anything
else centers (Python floor division, lower-bounded at 0). -/
def line_x (a s : String) : Int :=
  if a = "right" then (W : Int) - text_width s
  else if a = "left" then 2
  else max 0 (((W : Int) - text_width s).fdiv 2)

/-- Per-line y position from both scripts: `y = y0 + i*(font_h + line_spacing)`
with `font_h = 8`. -/
def line_y (y0 line_spacing : Int) (i : Nat) : Int :=
  y0 + (i : Int) * (8 + line_spacing)

/-- Start row from `show_lines_align` in `pihud-ip.py`: the explicit
`y_start` if given, else vertical centering
`max(0, (H - (n*font_h + (n-1)*line_spacing)) // 2)`. -/
def y0_of (n : Nat) (line_spacing : Int) (y_start : Option Int) : Int :=
  match y_start with
  | some ys => ys
  | none => max 0 (((H : Int) - ((n : Int) * 8 + ((n : Int) - 1) * line_spacing)).fdiv 2)

/-- Start row from `show_lines_align` in `pihud-kismet.py`, line 85:
`y0 = 2 if y_start is None else y_start`. -/
def kismet_y0 (y_start : Option Int) : Int :=
  match y_start with
  | some ys => ys
  | none => 2

/-- One iteration of the drawing loop in `pihud-ip.py`'s
`show_lines_align`: compute (x, y) for line `i` and draw only when
`0 <= y <= H - font_h`. -/
def draw_step (y0 line_spacing : Int) (fb : List Nat) (i : Nat) (s a : String) :
    List Nat :=
  let x := line_x a s
  let y := line_y y0 line_spacing i
  if 0 ≤ y ∧ y ≤ (H : Int) - 8 then drawText fb s x y else fb

/-- One iteration of the drawing loop in `pihud-kismet.py`'s
`show_lines_align`: x is always the left margin 2, same bounds guard. -/
def kismet_draw_step (y0 line_spacing : Int) (fb : List Nat) (i : Nat) (s : String) :
    List Nat :=
  let y := line_y y0 line_spacing i
  if 0 ≤ y ∧ y ≤ (H : Int) - 8 then drawText fb s 2 y else fb

/-- The `align` argument of `show_lines_align`: a single alignment
string applied to every line, or a per-line list. -/
inductive AlignArg
  | one (a : String)
  | many (as : List String)

/-- The align-normalization prologue of `pihud-ip.py`'s
`show_lines_align`: a list must match the line count
(else `ValueError`), a single string is replicated. -/
def normalize_aligns (lines : List String) (align : AlignArg) :
    Except String (List String) :=
  match align with
  | AlignArg.many as =>
      if as.length = lines.length then Except.ok as
      else Except.error "When align is a list/tuple, its length must match lines"
  | AlignArg.one a => Except.ok (List.replicate lines.length a)

/-- `show_lines_align` from `pihud-ip.py`: normalize alignments, clear
the framebuffer, draw each in-bounds line, then push the frame once.
Returns the composed framebuffer and the pushed bus trace. -/
def show_lines_align (r : Rotate) (lines : List String) (align : AlignArg)
    (line_spacing : Int) (y_start : Option Int) :
    Except String (List Nat × List Tx) := do
  let aligns ← normalize_aligns lines align
  let y0 := y0_of lines.length line_spacing y_start
  let fb := ((lines.zip aligns).enum).foldl
    (fun fb p => draw_step y0 line_spacing fb p.1 p.2.1 p.2.2)
    (List.replicate (W * PAGES) 0)
  pure (fb, push_frame_only r fb)

/-- `show_lines_align` from `pihud-kismet.py`: all lines forced
left-aligned, fixed top padding when no start row is given. -/
def show_lines_align_kismet (lines : List String) (line_spacing : Int)
    (y_start : Option Int) : List Nat × List Tx :=
  let y0 := kismet_y0 y_start
  let fb := lines.enum.foldl
    (fun fb p => kismet_draw_step y0 line_spacing fb p.1 p.2)
    (List.replicate (W * PAGES) 0)
  (fb, push_frame_only Rotate.r0 fb)

/-!
External text producers (`kismet_feed.py`) and the kismet redraw loop.
-/

/-- The counts dict returned by `get_counts` / `parse_all_views_sizes`. -/
structure Counts where
  ap : Nat
  wifi : Nat
  bt : Nat
deriving DecidableEq

/-- The body of the `while True` redraw loop in `pihud-kismet.py`
(lines 102-122), up to the five display lines it builds.  The call
`counts = get_counts()` sits inside the loop with no exception handler
(only `KeyboardInterrupt` is caught, outside the loop), so a raise from
`get_counts` propagates; this is modelled by the `Except` bind. -/
def kismet_cycle_lines (uptime_line : String) (counts : Except String Counts)
    (gps : String) : Except String (List String) := do
  let c ← counts
  pure [uptime_line,
        "AP: " ++ toString c.ap,
        "Wifi: " ++ toString c.wifi,
        "BT: " ++ toString c.bt,
        "GPS: " ++ gps]

/-- A gpsd report as `get_gps_status` consumes it: its `class` field and
its `mode` attribute (`getattr(report, 'mode', 1)` defaults to 1). -/
structure GpsReport where
  cls : String
  mode : Option Int

/-- `get_gps_status` from `kismet_feed.py`: scan the reports
`session.next()` yields for the first one whose class is `TPV`; any
failure of the gpsd session (including stream exhaustion) lands in the
`except` branch, which returns `NO`.  A TPV report maps mode 3 to `3D`,
mode 2 to `2D`, and anything else to `NO-FIX`. -/
def get_gps_status (reports : List GpsReport) : String :=
  match reports.find? (fun rep => rep.cls = "TPV") with
  | none => "NO"
  | some rep =>
      let m := rep.mode.getD 1
      if m = 3 then "3D"
      else if m = 2 then "2D"
      else "NO-FIX"

/-- The claim's reading of `setCursor`, for comparison with
`set_page_col`: the column is clamped to the orientation profile's
column offset baseline (lower-bounded at the offset) before the
nibble-splitting. -/
def set_page_col_claim (r : Rotate) (page col : Nat) : List Tx :=
  let c := max col (X_OFFSET r)
  [Tx.cmd [0xB0 ||| (page &&& 0x0F)],
   Tx.cmd [0x00 ||| (c &&& 0x0F)],
   Tx.cmd [0x10 ||| ((c >>> 4) &&& 0x0F)]]

/-!
Claim theorems.
-/

/-- C1: the claim says a failure of `get_counts` is recovered locally by
a placeholder line or by omitting the line and never aborts the redraw
loop.  In `pihud-kismet.py` the call sits in the loop body with no
exception handler (only `KeyboardInterrupt` is caught, outside the
`while`), so any producer failure propagates out of the cycle instead of
yielding a line list. -/
theorem C1_cycle_propagates :
    (∀ e uptime gps, kismet_cycle_lines uptime (Except.error e) gps
        = Except.error e) ∧
    kismet_cycle_lines "Up 00:00:05" (Except.error "HTTP timeout") "NO"
        = Except.error "HTTP timeout" :=
  ⟨fun _ _ _ => rfl, rfl⟩

/-- C4: the claim says `get_gps_status` returns one of exactly `NO`,
`2D`, `3D`.  On a TPV report with fix mode 1 (gpsd reachable, no fix)
the code returns the fourth string `NO-FIX`, contradicting its own
docstring. -/
theorem C4_gps_nofix :
    get_gps_status [⟨"TPV", some 1⟩] = "NO-FIX" ∧
    "NO-FIX" ∉ (["NO", "2D", "3D"] : List String) := by
  exact ⟨rfl, by decide⟩

/-- C5 counterexample: for the rotated-180 profile (column offset 39),
page 0 and column 0, the code's emitted column nibbles encode column 0,
not the offset-clamped column 39 the claim describes. -/
theorem C5_cursor_cex :
    set_page_col 0 0 ≠ set_page_col_claim Rotate.r180 0 0 := by decide

/-- C5 (amended): `_set_page_col` emits exactly three commands — select
page `0xB0 OR (page AND 0x0F)`, column low nibble `0x00 OR (col AND 0x0F)`,
column high nibble `0x10 OR ((col SHR 4) AND 0x0F)` — and the two column
nibbles together encode `col mod 256`: the column is reduced modulo 256
by the nibble masks, with no clamping to the profile's column offset. -/
theorem C5_cursor_cmds (page col : Nat) :
    (set_page_col page col).length = 3 ∧
    set_page_col page col =
      [Tx.cmd [0xB0 ||| (page &&& 0x0F)],
       Tx.cmd [0x00 ||| (col &&& 0x0F)],
       Tx.cmd [0x10 ||| ((col >>> 4) &&& 0x0F)]] ∧
    (col &&& 0x0F) + 16 * ((col >>> 4) &&& 0x0F) = col % 256 := by
  refine ⟨rfl, rfl, ?_⟩
  have h1 : col &&& 15 = col % 16 := by
    have := Nat.and_pow_two_sub_one_eq_mod col 4
    simpa using this
  have h2 : (col >>> 4) &&& 15 = (col / 16) % 16 := by
    have hs : col >>> 4 = col / 16 := by
      have := Nat.shiftRight_eq_div_pow col 4
      simpa using this
    rw [hs]
    have := Nat.and_pow_two_sub_one_eq_mod (col / 16) 4
    simpa using this
  rw [show (0x0F : Nat) = 15 from rfl, h1, h2]
  omega

/-- C7: for every data payload, `_data` splits it into consecutive
chunks of at most 16 bytes, issues one data-tagged transaction per
nonempty chunk in payload order, and the concatenation of the chunk
payloads equals the original payload. -/
theorem C7_data_chunking (ch : List Nat) :
    dataBytes (data_txs ch) = ch ∧
    (∀ t ∈ data_txs ch, txIsData t = true ∧ txPayload t ≠ [] ∧
        (txPayload t).length ≤ 16) := by
  refine ⟨dataBytes_data_txs ch, ?_⟩
  intro t ht
  rcases List.mem_map.mp ht with ⟨c, hc, rfl⟩
  exact ⟨rfl, (chunks16_mem hc).1, (chunks16_mem hc).2⟩

/-- Witness for C7: a 20-byte payload is sent as a 16-byte chunk
followed by a 4-byte chunk, both data-tagged, reassembling to the
payload. -/
theorem C7_data_chunking_witness :
    data_txs (List.range 20)
      = [Tx.data (List.range 16), Tx.data [16, 17, 18, 19]] ∧
    dataBytes (data_txs (List.range 20)) = List.range 20 :=
  ⟨by decide, (C7_data_chunking (List.range 20)).1⟩

/-- C8: `_init_for_48_rows` emits exactly display-off (0xAE), multiplex
ratio = H-1, display-offset = 0, start-line = 0 (0x40), segment remap,
COM scan direction, display-on (0xAF), in this order; the remap and
scan directives sit at positions 4 and 5, strictly before display-on at
position 6. -/
theorem C8_init_sequence (r : Rotate) :
    init_for_48_rows r =
      [Tx.cmd [0xAE], Tx.cmd [0xA8, H - 1], Tx.cmd [0xD3, 0], Tx.cmd [0x40],
       Tx.cmd [SEG r], Tx.cmd [COM r], Tx.cmd [0xAF]] ∧
    (init_for_48_rows r)[4]? = some (Tx.cmd [SEG r]) ∧
    (init_for_48_rows r)[5]? = some (Tx.cmd [COM r]) ∧
    (init_for_48_rows r)[6]? = some (Tx.cmd [0xAF]) := by
  rcases r <;> exact ⟨rfl, rfl, rfl, rfl⟩

/-- C3 counterexample: in `pihud-kismet.py`'s `show_lines_align` with
three lines, spacing 0 and no explicit start row, line 0 is drawn at
row 2, not at the vertically-centered row max(0, (48-24)/2) = 12 the
claim computes. -/
theorem C3_centering_cex :
    line_y (kismet_y0 none) 0 0 = 2 ∧ y0_of 3 0 none = 12 ∧
    line_y (kismet_y0 none) 0 0 ≠ line_y (y0_of 3 0 none) 0 0 := by
  refine ⟨by decide, by decide, by decide⟩

/-- C3 (amended): in `pihud-ip.py`'s `show_lines_align` with no explicit
start row, the block is vertically centered — line i is drawn at
`max(0, (H - (n*8 + (n-1)*spacing)) // 2) + i*(8 + spacing)`, and in
particular for n = 3, spacing 0, line i starts at row 12 + 8*i.  In
`pihud-kismet.py`'s variant, no explicit start row instead yields the
fixed top padding y0 = 2, so line i starts at row 2 + i*(8 + spacing). -/
theorem C3_vertical_layout (n : Nat) (spacing : Int) (i : Nat) :
    line_y (y0_of n spacing none) spacing i
      = max 0 (((H : Int) - ((n : Int) * 8 + ((n : Int) - 1) * spacing)).fdiv 2)
        + (i : Int) * (8 + spacing) ∧
    line_y (y0_of 3 0 none) 0 i = 12 + 8 * (i : Int) ∧
    line_y (kismet_y0 none) spacing i = 2 + (i : Int) * (8 + spacing) := by
  refine ⟨rfl, ?_, rfl⟩
  have h12 : y0_of 3 0 none = 12 := by decide
  rw [line_y, h12]
  ring

/-- C6: with line width `len(text)*6` at most W, the x positions
computed by `show_lines_align` give: a right-aligned line occupies
columns up to exactly W - 1, a left-aligned line starts at column 2,
and a centered line's left and right margins differ by at most 1. -/
theorem C6_alignment (s : String) (hw : text_width s ≤ (W : Int)) :
    line_x "right" s + text_width s - 1 = (W : Int) - 1 ∧
    line_x "left" s = 2 ∧
    |line_x "center" s - ((W : Int) - (line_x "center" s + text_width s))| ≤ 1 := by
  have hW : (W : Int) = 88 := by norm_num [W]
  have hw0 : 0 ≤ text_width s := by
    rw [text_width]
    positivity
  rw [hW] at hw ⊢
  refine ⟨?_, ?_, ?_⟩
  · rw [line_x, if_pos rfl, hW]
    ring
  · rw [line_x, if_neg (by decide), if_pos rfl]
  · rw [line_x, if_neg (by decide), if_neg (by decide), hW,
      Int.fdiv_eq_ediv _ (by norm_num),
      max_eq_right (by omega), abs_le]
    omega

/-- Witness for C6 at the line "host1" (width 30 on the 88-column
panel): right alignment ends at column 87, left alignment starts at
column 2, and the centered margins differ by at most 1. -/
theorem C6_alignment_witness :
    text_width "host1" ≤ (W : Int) ∧
    line_x "right" "host1" + text_width "host1" - 1 = (W : Int) - 1 ∧
    line_x "left" "host1" = 2 ∧
    |line_x "center" "host1" - ((W : Int) - (line_x "center" "host1" + text_width "host1"))| ≤ 1 :=
  ⟨by decide, C6_alignment "host1" (by decide)⟩

/-- C9: a line whose computed y falls outside [0, H - 8] is skipped
entirely by the drawing loops of both HUD scripts: the iteration for
that line returns the framebuffer unchanged (nothing partial is drawn
and no error is raised). -/
theorem C9_overflow_skip (fb : List Nat) (y0 spacing : Int) (i : Nat) (s a : String)
    (h : line_y y0 spacing i < 0 ∨ (H : Int) - 8 < line_y y0 spacing i) :
    draw_step y0 spacing fb i s a = fb ∧
    kismet_draw_step y0 spacing fb i s = fb := by
  have hn : ¬ (0 ≤ line_y y0 spacing i ∧ line_y y0 spacing i ≤ (H : Int) - 8) := by
    intro hcon
    rcases h with h | h
    · omega
    · omega
  constructor
  · simp only [draw_step, if_neg hn]
  · simp only [kismet_draw_step, if_neg hn]

/-- Witness for C9: with start row -10, spacing 0, line 0 computes
y = -10, which is out of bounds, and both drawing steps leave the
all-zero framebuffer untouched. -/
theorem C9_overflow_skip_witness :
    (line_y (-10) 0 0 < 0 ∨ (H : Int) - 8 < line_y (-10) 0 0) ∧
    draw_step (-10) 0 (List.replicate (W * PAGES) 0) 0 "fe80::1" "right"
        = List.replicate (W * PAGES) 0 ∧
    kismet_draw_step (-10) 0 (List.replicate (W * PAGES) 0) 0 "fe80::1"
        = List.replicate (W * PAGES) 0 := by
  have h : line_y (-10) 0 0 < 0 ∨ (H : Int) - 8 < line_y (-10) 0 0 := by decide
  have hk := C9_overflow_skip (List.replicate (W * PAGES) 0) (-10) 0 0 "fe80::1" "right" h
  exact ⟨h, hk.1, hk.2⟩

lemma dataBytes_push_eq (r : Rotate) (buf : List Nat)
    (hlen : buf.length = W * PAGES) :
    dataBytes (push_frame_only r buf) = buf := by
  have hlen' : buf.length = 528 := by simpa [W, PAGES, H] using hlen
  have hrange : List.range PAGES = [0, 1, 2, 3, 4, 5] := rfl
  rw [push_frame_only, hrange]
  simp only [List.flatMap_cons, List.flatMap_nil, List.append_nil,
    dataBytes_append, dataBytes_set_page_col, dataBytes_data_txs,
    List.nil_append, sliceP, W]
  norm_num
  have h5 : (buf.drop 440).take 88 = buf.drop 440 :=
    List.take_of_length_le (by simp [List.length_drop, hlen'])
  rw [h5,
    show buf.drop 440 = buf.drop (352 + 88) from rfl, slice_glue buf 352 88,
    show buf.drop 352 = buf.drop (264 + 88) from rfl, slice_glue buf 264 88,
    show buf.drop 264 = buf.drop (176 + 88) from rfl, slice_glue buf 176 88,
    show buf.drop 176 = buf.drop (88 + 88) from rfl, slice_glue buf 88 88]
  exact List.take_append_drop 88 buf

/-- C2: `push_frame_only` visits the logical pages 0..PAGES-1 in
increasing order; for each page p it sets the cursor to
(p, X_OFFSET) and then sends exactly the W-byte slice
buf[p*W : p*W+W] as data; the data bytes of the whole trace reassemble
the framebuffer, and every transaction on this path is either pixel
data or a cursor-movement command (no initialization commands). -/
theorem C2_push_frame (r : Rotate) (buf : List Nat)
    (hlen : buf.length = W * PAGES) :
    push_frame_only r buf =
      (set_page_col 0 (X_OFFSET r) ++ data_txs (sliceP buf (0 * W) W)) ++
      ((set_page_col 1 (X_OFFSET r) ++ data_txs (sliceP buf (1 * W) W)) ++
      ((set_page_col 2 (X_OFFSET r) ++ data_txs (sliceP buf (2 * W) W)) ++
      ((set_page_col 3 (X_OFFSET r) ++ data_txs (sliceP buf (3 * W) W)) ++
      ((set_page_col 4 (X_OFFSET r) ++ data_txs (sliceP buf (4 * W) W)) ++
      (set_page_col 5 (X_OFFSET r) ++ data_txs (sliceP buf (5 * W) W)))))) ∧
    dataBytes (push_frame_only r buf) = buf ∧
    (∀ p, p < PAGES → (sliceP buf (p * W) W).length = W ∧
      dataBytes (data_txs (sliceP buf (p * W) W)) = sliceP buf (p * W) W) ∧
    (∀ t ∈ push_frame_only r buf, txIsData t = true ∨ is_cursor_cmd t = true) := by
  refine ⟨?_, dataBytes_push_eq r buf hlen, ?_, ?_⟩
  · rw [push_frame_only, show List.range PAGES = [0, 1, 2, 3, 4, 5] from rfl]
    simp only [List.flatMap_cons, List.flatMap_nil, List.append_nil]
  · intro p hp
    refine ⟨?_, dataBytes_data_txs _⟩
    simp only [sliceP, List.length_take, List.length_drop, hlen]
    simp only [W, PAGES, H] at hp ⊢
    omega
  · intro t ht
    rw [push_frame_only] at ht
    rcases List.mem_flatMap.mp ht with ⟨p, _, hseg⟩
    rcases List.mem_append.mp hseg with hcur | hdat
    · right
      simp only [set_page_col, List.mem_cons, List.not_mem_nil, or_false] at hcur
      rcases hcur with h | h | h
      · subst h
        have hx : p &&& 0x0F < 16 := by
          have := Nat.and_pow_two_sub_one_eq_mod p 4
          simp at this
          omega
        generalize p &&& 0x0F = x at hx ⊢
        interval_cases x <;> decide
      · subst h
        rcases r <;> decide
      · subst h
        rcases r <;> decide
    · left
      rcases List.mem_map.mp hdat with ⟨c, _, rfl⟩
      rfl

/-- Witness for C2 at an all-zero framebuffer of the correct length:
the pushed data bytes are exactly the framebuffer. -/
theorem C2_push_frame_witness :
    (List.replicate (W * PAGES) 0).length = W * PAGES ∧
    dataBytes (push_frame_only Rotate.r0 (List.replicate (W * PAGES) 0))
      = List.replicate (W * PAGES) 0 :=
  ⟨by simp, (C2_push_frame Rotate.r0 (List.replicate (W * PAGES) 0) (by simp)).2.1⟩

/-- C10: composing an empty line list completes without raising —
`pihud-ip.py`'s variant returns normally for both align-argument forms,
`pihud-kismet.py`'s variant returns normally — and the frame pushed is
the all-zero (fully cleared) framebuffer. -/
theorem C10_empty_lines :
    show_lines_align Rotate.r0 [] (AlignArg.one "center") 12 none
      = Except.ok (List.replicate (W * PAGES) 0,
          push_frame_only Rotate.r0 (List.replicate (W * PAGES) 0)) ∧
    show_lines_align Rotate.r0 [] (AlignArg.many []) 12 none
      = Except.ok (List.replicate (W * PAGES) 0,
          push_frame_only Rotate.r0 (List.replicate (W * PAGES) 0)) ∧
    dataBytes (push_frame_only Rotate.r0 (List.replicate (W * PAGES) 0))
      = List.replicate (W * PAGES) 0 ∧
    (show_lines_align_kismet [] 0 (some 8)).1 = List.replicate (W * PAGES) 0 := by
  exact ⟨rfl, rfl, dataBytes_push_eq Rotate.r0 _ (by simp), rfl⟩

end PiHud
